import Mathlib

/-!
Verification of the user-service credential and authorization engine.

The Python service (src/app) keeps all durable state in a MongoDB
collection of user documents.  We embed that state shallowly: the
collection is a list of accounts plus a counter supplying the next
persistence-assigned identifier.  Mongo `find_one`, `update_one` and
`delete_one` act on the FIRST matching document, which we mirror with
`List.find?`, `updateFirst` and `List.eraseP`.  Timestamps
(`created_at`, `updated_at`, `last_login_at`) influence none of the
verified behaviour and are omitted from the account record.  The bcrypt
hasher is modelled as a deterministic injective digest: the theorems
about authentication hypothesise the outcome of `verify_password`
rather than relying on properties of the digest itself.

Executions are single-threaded: each service call takes the state and
returns the successor state.  A Python exception raised before any
persistence write is modelled as an error result paired with the
unchanged input state, exactly matching the control flow of the source
(in every modelled path the `raise` precedes the first mutation).
-/

deriving instance DecidableEq for Except

/-- One document of the `users` collection (src/app/models.py, `User`).
Timestamp fields are omitted; they play no role in the verified claims. -/
structure Account where
  id : Nat
  email : String
  hashed_password : String
  full_name : Option String
  role : String
  is_active : Bool
deriving DecidableEq

/-- The persistent state: the `users` collection plus the source of
fresh persistence-assigned identifiers (Mongo ObjectIds, modelled as
naturals). -/
structure St where
  users : List Account
  nextId : Nat
deriving DecidableEq

/-- The distinct `ValueError`s raised by `UserService`
(src/app/user_service.py), one constructor per distinct message.
`lastAdminDemote` and `lastAdminDelete` are the two last-admin
protection errors; `invalidRole` is the role-validation error;
`emailAlreadyRegistered` is the duplicate-registration error. -/
inductive ServiceError where
  | emailAlreadyRegistered
  | invalidRole
  | lastAdminDemote
  | lastAdminDelete
deriving DecidableEq

/-- Request body of `POST /register` (src/app/models.py, `UserCreate`). -/
structure UserCreate where
  email : String
  password : String
  full_name : Option String
  role : String
deriving DecidableEq

/-- Model of `get_password_hash` (src/app/auth.py).  bcrypt is replaced
by a deterministic injective digest; the salt is immaterial to the
claims, which hypothesise verification outcomes. -/
def get_password_hash (password : String) : String :=
  "bcrypt$" ++ password

/-- Model of `verify_password` (src/app/auth.py): the digest of the
candidate password must coincide with the stored digest. -/
def verify_password (plain_password hashed_password : String) : Bool :=
  get_password_hash plain_password == hashed_password

/-- Model of `UserService.get_user_by_email`: `find_one({"email": email})`,
the first document with the given email. -/
def get_user_by_email (s : St) (email : String) : Option Account :=
  s.users.find? (fun u => u.email == email)

/-- Model of `UserService.get_user_by_id`: `find_one({"_id": ObjectId(user_id)})`.
A malformed identifier makes the Python wrapper return `None`; with
identifiers as naturals that path coincides with the not-found path. -/
def get_user_by_id (s : St) (user_id : Nat) : Option Account :=
  s.users.find? (fun u => u.id == user_id)

/-- Model of `UserService.count_admin_users`:
`count_documents({"role": "admin"})`.  Note that the filter ignores
`is_active`. -/
def count_admin_users (s : St) : Nat :=
  (s.users.filter (fun u => u.role == "admin")).length

/-- Mongo `update_one`: rewrite the FIRST document satisfying the
predicate, leave everything else in place. -/
def updateFirst (p : Account → Bool) (f : Account → Account) :
    List Account → List Account
  | [] => []
  | u :: us => if p u then f u :: us else u :: updateFirst p f us

/-- Model of `UserService.update_user`: `update_one({"_id": id}, {"$set": fields})`
followed by re-reading the document.  The field map is represented by
the function it induces on a document. -/
def update_user (s : St) (user_id : Nat) (setFields : Account → Account) :
    St × Option Account :=
  let s' : St := ⟨updateFirst (fun u => u.id == user_id) setFields s.users, s.nextId⟩
  (s', get_user_by_id s' user_id)

/-- The guard inside `UserService.update_user_role`: the requested role
is `"user"`, the target exists and currently has role `"admin"`, and the
total admin count is at most one. -/
def isLastAdminDemotion (s : St) (user_id : Nat) (role : String) : Bool :=
  role == "user" &&
    (match get_user_by_id s user_id with
     | some current_user =>
         current_user.role == "admin" && decide (count_admin_users s ≤ 1)
     | none => false)

/-- Model of `UserService.update_user_role` (src/app/user_service.py, lines
113-129): validate the role, run the last-admin check when demoting,
then write through `update_user`. -/
def update_user_role (s : St) (user_id : Nat) (role : String) :
    Except ServiceError (Option Account) × St :=
  if ¬(role = "admin" ∨ role = "user") then (.error .invalidRole, s)
  else if isLastAdminDemotion s user_id role then (.error .lastAdminDemote, s)
  else
    let r := update_user s user_id (fun u => {u with role := role})
    (.ok r.2, r.1)

/-- The guard inside `UserService.delete_user`: the target exists, has
role `"admin"`, and the total admin count is at most one. -/
def isLastAdminDeletion (s : St) (user_id : Nat) : Bool :=
  match get_user_by_id s user_id with
  | some user_to_delete =>
      user_to_delete.role == "admin" && decide (count_admin_users s ≤ 1)
  | none => false

/-- Model of `UserService.delete_user` (src/app/user_service.py, lines 131-141):
last-admin check, then `delete_one` (removes the first matching
document); the returned Boolean is `deleted_count > 0`. -/
def delete_user (s : St) (user_id : Nat) : Except ServiceError Bool × St :=
  if isLastAdminDeletion s user_id then (.error .lastAdminDelete, s)
  else
    (.ok (s.users.any (fun u => u.id == user_id)),
     ⟨s.users.eraseP (fun u => u.id == user_id), s.nextId⟩)

/-- Model of `UserService.create_user` (src/app/user_service.py, lines 16-39):
reject a duplicate email, otherwise hash the password and insert the
document.  The stored role is taken verbatim from the request; `User`
defaults `is_active` to true. -/
def create_user (s : St) (user_data : UserCreate) :
    Except ServiceError Account × St :=
  match get_user_by_email s user_data.email with
  | some _ => (.error .emailAlreadyRegistered, s)
  | none =>
    let user : Account :=
      { id := s.nextId
        email := user_data.email
        hashed_password := get_password_hash user_data.password
        full_name := user_data.full_name
        role := user_data.role
        is_active := true }
    (.ok user, ⟨s.users ++ [user], s.nextId + 1⟩)

/-- Model of `UserService.authenticate_user` (src/app/user_service.py, lines
60-67): `None` for an unknown email, `None` for a failed password
check, the account otherwise. -/
def authenticate_user (s : St) (email password : String) : Option Account :=
  match get_user_by_email s email with
  | none => none
  | some user =>
      if verify_password password user.hashed_password then some user else none

/-- Model of `UserService.create_default_admin` (src/app/user_service.py, lines
143-170): if an account with the configured email exists it is returned
unchanged, otherwise an admin account is created through `create_user`;
a creation failure is swallowed and yields `none`. -/
def create_default_admin (s : St)
    (admin_email admin_password admin_name : String) : Option Account × St :=
  match get_user_by_email s admin_email with
  | some existing_admin => (some existing_admin, s)
  | none =>
    match create_user s ⟨admin_email, admin_password, some admin_name, "admin"⟩ with
    | (.ok admin_user, s') => (some admin_user, s')
    | (.error _, s') => (none, s')

/-- The outward errors of the `DELETE /{user_id}` route
(src/app/user_routes.py): the self-delete rejection (HTTP 400), the
not-found rejection (HTTP 404), and the 400 wrapping a service
`ValueError`. -/
inductive RouteError where
  | selfDeleteForbidden
  | notFound
  | badRequest (e : ServiceError)
deriving DecidableEq

/-- The `DELETE /{user_id}` route handler (src/app/user_routes.py,
lines 128-156), after authentication has produced `current_admin`:
reject self-deletion before touching the service, then map the service
outcome to the HTTP response. -/
def delete_user_route (s : St) (current_admin_id user_id : Nat) :
    Except RouteError String × St :=
  if current_admin_id = user_id then (.error .selfDeleteForbidden, s)
  else
    match delete_user s user_id with
    | (.ok true, s') => (.ok "User deleted successfully", s')
    | (.ok false, s') => (.error .notFound, s')
    | (.error e, s') => (.error (.badRequest e), s')

/-- The admin-directory transitions the last-admin invariant speaks
about: a role change or a deletion. -/
inductive AdminOp where
  | setRole (user_id : Nat) (role : String)
  | delete (user_id : Nat)
deriving DecidableEq

/-- Run one transition, keeping the successor state only when the call
raises no error. -/
def runOp (s : St) : AdminOp → Except ServiceError St
  | .setRole i r =>
    match update_user_role s i r with
    | (.ok _, s') => .ok s'
    | (.error e, _) => .error e
  | .delete i =>
    match delete_user s i with
    | (.ok _, s') => .ok s'
    | (.error e, _) => .error e

/-- Run a sequence of transitions; the run succeeds only when every
call individually succeeds. -/
def runOps : St → List AdminOp → Except ServiceError St
  | s, [] => .ok s
  | s, op :: ops =>
    match runOp s op with
    | .ok s' => runOps s' ops
    | .error e => .error e

/-! ### Counting admins under the collection operations -/

/-- Admin count of a raw collection; `count_admin_users` unfolds to it. -/
def countAdminList (l : List Account) : Nat :=
  (l.filter (fun u => u.role == "admin")).length

theorem count_admin_users_def (s : St) :
    count_admin_users s = countAdminList s.users := rfl

theorem count_admin_users_mk (l : List Account) (n : Nat) :
    count_admin_users ⟨l, n⟩ = countAdminList l := rfl

theorem countAdminList_cons (a : Account) (l : List Account) :
    countAdminList (a :: l) =
      countAdminList l + (if a.role = "admin" then 1 else 0) := by
  by_cases h : a.role = "admin" <;>
    simp [countAdminList, List.filter_cons, h]

theorem updateFirst_of_find_none {p : Account → Bool} {f : Account → Account} :
    ∀ {l : List Account}, l.find? p = none → updateFirst p f l = l
  | [], _ => rfl
  | a :: l, h => by
    rw [List.find?_eq_none] at h
    have ha : ¬ p a := h a (by simp)
    have h' : l.find? p = none :=
      List.find?_eq_none.mpr (fun x hx => h x (by simp [hx]))
    simp [updateFirst, ha, updateFirst_of_find_none h']

theorem countAdminList_updateFirst_admin (p : Account → Bool) :
    ∀ l : List Account,
      countAdminList l ≤
        countAdminList (updateFirst p (fun u => {u with role := "admin"}) l)
  | [] => Nat.le_refl 0
  | a :: l => by
    by_cases h : p a
    · simp only [updateFirst, if_pos h, countAdminList_cons]
      by_cases ha : a.role = "admin" <;> simp [ha]
    · simp only [updateFirst, if_neg h, countAdminList_cons]
      have := countAdminList_updateFirst_admin p l
      omega

theorem countAdminList_updateFirst_user_not_admin {p : Account → Bool} :
    ∀ {l : List Account} {u : Account}, l.find? p = some u → u.role ≠ "admin" →
      countAdminList (updateFirst p (fun v => {v with role := "user"}) l) =
        countAdminList l
  | [], u, h, _ => by simp at h
  | a :: l, u, h, hu => by
    by_cases hp : p a
    · rw [List.find?_cons_of_pos l hp] at h
      obtain rfl : a = u := by injection h
      simp only [updateFirst, if_pos hp, countAdminList_cons]
      simp [hu]
    · rw [List.find?_cons_of_neg l hp] at h
      simp only [updateFirst, if_neg hp, countAdminList_cons,
        countAdminList_updateFirst_user_not_admin h hu]

theorem countAdminList_updateFirst_user_admin {p : Account → Bool} :
    ∀ {l : List Account} {u : Account}, l.find? p = some u → u.role = "admin" →
      countAdminList (updateFirst p (fun v => {v with role := "user"}) l) + 1 =
        countAdminList l
  | [], u, h, _ => by simp at h
  | a :: l, u, h, hu => by
    by_cases hp : p a
    · rw [List.find?_cons_of_pos l hp] at h
      obtain rfl : a = u := by injection h
      simp only [updateFirst, if_pos hp, countAdminList_cons]
      simp [hu]
    · rw [List.find?_cons_of_neg l hp] at h
      simp only [updateFirst, if_neg hp, countAdminList_cons]
      rw [← countAdminList_updateFirst_user_admin h hu]
      omega

theorem countAdminList_eraseP_not_admin {p : Account → Bool} :
    ∀ {l : List Account} {u : Account}, l.find? p = some u → u.role ≠ "admin" →
      countAdminList (l.eraseP p) = countAdminList l
  | [], u, h, _ => by simp at h
  | a :: l, u, h, hu => by
    by_cases hp : p a
    · rw [List.find?_cons_of_pos l hp] at h
      obtain rfl : a = u := by injection h
      rw [List.eraseP_cons_of_pos hp, countAdminList_cons]
      simp [hu]
    · rw [List.find?_cons_of_neg l hp] at h
      rw [List.eraseP_cons_of_neg hp, countAdminList_cons, countAdminList_cons,
        countAdminList_eraseP_not_admin h hu]

theorem countAdminList_eraseP_admin {p : Account → Bool} :
    ∀ {l : List Account} {u : Account}, l.find? p = some u → u.role = "admin" →
      countAdminList (l.eraseP p) + 1 = countAdminList l
  | [], u, h, _ => by simp at h
  | a :: l, u, h, hu => by
    by_cases hp : p a
    · rw [List.find?_cons_of_pos l hp] at h
      obtain rfl : a = u := by injection h
      rw [List.eraseP_cons_of_pos hp, countAdminList_cons]
      simp [hu]
    · rw [List.find?_cons_of_neg l hp] at h
      rw [List.eraseP_cons_of_neg hp, countAdminList_cons, countAdminList_cons]
      rw [← countAdminList_eraseP_admin h hu]
      omega

/-! ### Inverting successful calls -/

theorem update_user_role_ok {s : St} {i : Nat} {r : String}
    {res : Option Account} {s' : St}
    (h : update_user_role s i r = (.ok res, s')) :
    (r = "admin" ∨ r = "user") ∧ isLastAdminDemotion s i r = false ∧
      s' = ⟨updateFirst (fun u => u.id == i) (fun u => {u with role := r})
              s.users, s.nextId⟩ := by
  unfold update_user_role at h
  split at h
  · simp at h
  next hv =>
    split at h
    next hg => simp at h
    next hg =>
      have hg' : isLastAdminDemotion s i r = false := by simpa using hg
      simp only [update_user] at h
      exact ⟨not_not.mp hv, hg', (congrArg Prod.snd h).symm⟩

theorem delete_user_ok {s : St} {i : Nat} {b : Bool} {s' : St}
    (h : delete_user s i = (.ok b, s')) :
    isLastAdminDeletion s i = false ∧
      s' = ⟨s.users.eraseP (fun u => u.id == i), s.nextId⟩ := by
  unfold delete_user at h
  split at h
  next hg => simp at h
  next hg =>
    have hg' : isLastAdminDeletion s i = false := by simpa using hg
    exact ⟨hg', (congrArg Prod.snd h).symm⟩

theorem runOp_setRole_ok {s : St} {i : Nat} {r : String} {s' : St}
    (h : runOp s (.setRole i r) = .ok s') :
    ∃ res, update_user_role s i r = (.ok res, s') := by
  have h2 : (match update_user_role s i r with
      | (.ok _, s1) => (Except.ok s1 : Except ServiceError St)
      | (.error e, _) => .error e) = .ok s' := h
  rcases hur : update_user_role s i r with ⟨e | res, s1⟩ <;> rw [hur] at h2
  · have h3 : (Except.error e : Except ServiceError St) = .ok s' := h2
    cases h3
  · have h3 : (Except.ok s1 : Except ServiceError St) = .ok s' := h2
    cases h3
    exact ⟨res, rfl⟩

theorem runOp_delete_ok {s : St} {i : Nat} {s' : St}
    (h : runOp s (.delete i) = .ok s') :
    ∃ b, delete_user s i = (.ok b, s') := by
  have h2 : (match delete_user s i with
      | (.ok _, s1) => (Except.ok s1 : Except ServiceError St)
      | (.error e, _) => .error e) = .ok s' := h
  rcases hur : delete_user s i with ⟨e | b, s1⟩ <;> rw [hur] at h2
  · have h3 : (Except.error e : Except ServiceError St) = .ok s' := h2
    cases h3
  · have h3 : (Except.ok s1 : Except ServiceError St) = .ok s' := h2
    cases h3
    exact ⟨b, rfl⟩

/-! ### Preservation of the admin count -/

theorem countAdmin_preserved_setRole {s : St} {i : Nat} {r : String}
    {res : Option Account} {s' : St}
    (h1 : 1 ≤ count_admin_users s)
    (h : update_user_role s i r = (.ok res, s')) :
    1 ≤ count_admin_users s' := by
  obtain ⟨hv, hg, hs⟩ := update_user_role_ok h
  subst hs
  rw [count_admin_users_def] at h1
  rw [count_admin_users_mk]
  rcases hv with rfl | rfl
  · exact le_trans h1 (countAdminList_updateFirst_admin _ s.users)
  · simp only [isLastAdminDemotion] at hg
    cases hfind : get_user_by_id s i with
    | none =>
      rw [get_user_by_id] at hfind
      rw [updateFirst_of_find_none hfind]
      exact h1
    | some u =>
      rw [hfind] at hg
      rw [get_user_by_id] at hfind
      by_cases hu : u.role = "admin"
      · have hc : 1 < count_admin_users s := by
          simp [hu] at hg
          exact hg
        rw [count_admin_users_def] at hc
        have hstep := countAdminList_updateFirst_user_admin hfind hu
        omega
      · rw [countAdminList_updateFirst_user_not_admin hfind hu]
        exact h1

theorem countAdmin_preserved_delete {s : St} {i : Nat} {b : Bool} {s' : St}
    (h1 : 1 ≤ count_admin_users s)
    (h : delete_user s i = (.ok b, s')) :
    1 ≤ count_admin_users s' := by
  obtain ⟨hg, hs⟩ := delete_user_ok h
  subst hs
  rw [count_admin_users_def] at h1
  rw [count_admin_users_mk]
  simp only [isLastAdminDeletion] at hg
  cases hfind : get_user_by_id s i with
  | none =>
    rw [get_user_by_id] at hfind
    rw [List.eraseP_eq_self_iff.mpr (List.find?_eq_none.mp hfind)]
    exact h1
  | some u =>
    rw [hfind] at hg
    rw [get_user_by_id] at hfind
    by_cases hu : u.role = "admin"
    · have hc : 1 < count_admin_users s := by
        simp [hu] at hg
        exact hg
      rw [count_admin_users_def] at hc
      have hstep := countAdminList_eraseP_admin hfind hu
      omega
    · rw [countAdminList_eraseP_not_admin hfind hu]
      exact h1

theorem runOp_preserves_admin {s : St} {op : AdminOp} {s' : St}
    (h1 : 1 ≤ count_admin_users s) (h2 : runOp s op = .ok s') :
    1 ≤ count_admin_users s' := by
  cases op with
  | setRole i r =>
    obtain ⟨res, h⟩ := runOp_setRole_ok h2
    exact countAdmin_preserved_setRole h1 h
  | delete i =>
    obtain ⟨b, h⟩ := runOp_delete_ok h2
    exact countAdmin_preserved_delete h1 h

theorem runOps_preserves_admin :
    ∀ (ops : List AdminOp) (s s' : St),
      1 ≤ count_admin_users s → runOps s ops = .ok s' →
      1 ≤ count_admin_users s'
  | [], s, s', h1, h2 => by
    simp only [runOps] at h2
    cases h2
    exact h1
  | op :: ops, s, s', h1, h2 => by
    unfold runOps at h2
    split at h2
    next s1 heq =>
      exact runOps_preserves_admin ops s1 s'
        (runOp_preserves_admin h1 heq) h2
    next e heq => cases h2

/-! ### The admin count excluding a given account -/

/-- The count of admins other than a given account: the quantity the
specification phrases the last-admin policy in terms of
(`adminCountAfterExcludingThisAccount`). -/
def otherAdminCount (s : St) (user_id : Nat) : Nat :=
  (s.users.filter (fun u => u.role == "admin" && !(u.id == user_id))).length

theorem countAdminList_split (i : Nat) :
    ∀ l : List Account,
      countAdminList l =
        (l.filter (fun u => u.role == "admin" && !(u.id == i))).length +
        (l.filter (fun u => u.role == "admin" && (u.id == i))).length
  | [] => rfl
  | a :: l => by
    have ih := countAdminList_split i l
    by_cases ha : a.role = "admin" <;> by_cases hi : a.id = i <;>
      simp [countAdminList_cons, List.filter_cons, ha, hi, ih] <;> omega

theorem filter_admin_id_eq_singleton {i : Nat} {u : Account} :
    ∀ {l : List Account}, (l.map Account.id).Nodup →
      l.find? (fun v => v.id == i) = some u → u.role = "admin" →
      (l.filter (fun v => v.role == "admin" && (v.id == i))).length = 1
  | [], _, hfind, _ => by simp at hfind
  | a :: l, hnodup, hfind, hu => by
    rw [List.map_cons, List.nodup_cons] at hnodup
    obtain ⟨hnotmem, hnodup'⟩ := hnodup
    by_cases hp : a.id = i
    · rw [List.find?_cons_of_pos l (by simp [hp])] at hfind
      obtain rfl : a = u := by injection hfind
      have hnil : l.filter (fun v => v.role == "admin" && (v.id == i)) = [] := by
        rw [List.filter_eq_nil_iff]
        intro v hv hvp
        simp only [Bool.and_eq_true, beq_iff_eq] at hvp
        have hmem : a.id ∈ List.map Account.id l := by
          rw [hp, ← hvp.2]
          exact List.mem_map_of_mem Account.id hv
        exact hnotmem hmem
      simp [List.filter_cons, hu, hp, hnil]
    · rw [List.find?_cons_of_neg l (by simp [hp])] at hfind
      have := filter_admin_id_eq_singleton hnodup' hfind hu
      simp only [List.filter_cons]
      by_cases ha : a.role = "admin" <;> simp [ha, hp, this]

theorem count_eq_other_succ {s : St} {i : Nat} {u : Account}
    (hnodup : (s.users.map Account.id).Nodup)
    (hfind : get_user_by_id s i = some u) (hu : u.role = "admin") :
    count_admin_users s = otherAdminCount s i + 1 := by
  rw [get_user_by_id] at hfind
  rw [count_admin_users_def, countAdminList_split i s.users,
    filter_admin_id_eq_singleton hnodup hfind hu]
  rfl

/-! ### Characterizing the last-admin guards -/

theorem isLastAdminDemotion_iff (s : St) (i : Nat) (r : String) :
    isLastAdminDemotion s i r = true ↔
      r = "user" ∧ ∃ u, get_user_by_id s i = some u ∧ u.role = "admin" ∧
        count_admin_users s ≤ 1 := by
  unfold isLastAdminDemotion
  cases hfind : get_user_by_id s i with
  | none => simp
  | some u => simp [and_assoc]

theorem isLastAdminDeletion_iff (s : St) (i : Nat) :
    isLastAdminDeletion s i = true ↔
      ∃ u, get_user_by_id s i = some u ∧ u.role = "admin" ∧
        count_admin_users s ≤ 1 := by
  unfold isLastAdminDeletion
  cases hfind : get_user_by_id s i with
  | none => simp
  | some u => simp [and_assoc]

/-! ### Claims about the role/delete transitions -/

/-- C1: starting from any state with at least one account whose role is
`"admin"`, every finite sequence of `update_user_role` and
`delete_user` calls executed sequentially in which each call
individually succeeds leaves the number of admin accounts at least 1.
Since every prefix of such a sequence is again such a sequence, the
bound holds after every call. -/
theorem C1_admin_count_invariant (s s' : St) (ops : List AdminOp)
    (h1 : 1 ≤ count_admin_users s) (h2 : runOps s ops = .ok s') :
    1 ≤ count_admin_users s' :=
  runOps_preserves_admin ops s s' h1 h2

/-- Witness for C1: two admins, demote the first, then delete it. -/
theorem C1_admin_count_invariant_witness :
    1 ≤ count_admin_users ⟨[⟨1, "bob@example.com", "h1", none, "admin", true⟩], 2⟩ :=
  C1_admin_count_invariant
    ⟨[⟨0, "root@example.com", "h0", none, "admin", true⟩,
      ⟨1, "bob@example.com", "h1", none, "admin", true⟩], 2⟩
    ⟨[⟨1, "bob@example.com", "h1", none, "admin", true⟩], 2⟩
    [.setRole 0 "user", .delete 0] (by decide) (by decide)

/-- The number of accounts that are both admin and active — the
quantity the specification's reachability sentence refers to.  The code
never computes it: `count_admin_users` ignores `is_active`. -/
def count_active_admin_users (s : St) : Nat :=
  (s.users.filter (fun u => u.role == "admin" && u.is_active)).length

/-- C2 counterexample: in the state holding the active admin (id 0) and
an inactive admin (id 1), deleting account 0 succeeds — the guard sees
two admins — yet the resulting state has zero active admins.  The
claimed active-admin invariant fails on the code. -/
theorem C2_zero_active_admins_reachable :
    1 ≤ count_active_admin_users
        ⟨[⟨0, "a@x", "h", none, "admin", true⟩,
          ⟨1, "b@x", "h", none, "admin", false⟩], 2⟩ ∧
    (delete_user ⟨[⟨0, "a@x", "h", none, "admin", true⟩,
          ⟨1, "b@x", "h", none, "admin", false⟩], 2⟩ 0).1 = .ok true ∧
    count_active_admin_users
      (delete_user ⟨[⟨0, "a@x", "h", none, "admin", true⟩,
          ⟨1, "b@x", "h", none, "admin", false⟩], 2⟩ 0).2 = 0 := by
  decide

/-- C2 (amended): through the role-change and delete transitions no
state with zero admin accounts is reachable — any single succeeding
call keeps `count_admin_users` at least 1.  The stronger active-admin
form of the claim is false, because the guard counts admins regardless
of `is_active`; `C2_zero_active_admins_reachable` reaches a state with
zero ACTIVE admins. -/
theorem C2_single_step_admin_preserved (s s' : St) (op : AdminOp)
    (h1 : 1 ≤ count_admin_users s) (h2 : runOp s op = .ok s') :
    1 ≤ count_admin_users s' :=
  runOp_preserves_admin h1 h2

/-- Witness for the amended C2: deleting a non-admin account. -/
theorem C2_single_step_admin_preserved_witness :
    1 ≤ count_admin_users ⟨[⟨0, "a@x", "h", none, "admin", true⟩], 2⟩ :=
  C2_single_step_admin_preserved
    ⟨[⟨0, "a@x", "h", none, "admin", true⟩,
      ⟨1, "b@x", "h", none, "user", true⟩], 2⟩
    ⟨[⟨0, "a@x", "h", none, "admin", true⟩], 2⟩
    (.delete 1) (by decide) (by decide)

/-- C5: for every state and every identifier, the delete route called
with requester equal to target fails with the self-delete error —
regardless of the admin count and of the target account's role — and
the state is unchanged: no account is deleted.  The check precedes the
last-admin check and the deletion itself. -/
theorem C5_self_delete_forbidden (s : St) (user_id : Nat) :
    delete_user_route s user_id user_id = (.error .selfDeleteForbidden, s) := by
  unfold delete_user_route
  rw [if_pos rfl]

/-- C6: for every role string outside the enum and every target,
`update_user_role` fails with the invalid-role error and returns the
state unchanged; the validation runs before any lookup or mutation. -/
theorem C6_invalid_role_rejected (s : St) (user_id : Nat) (role : String)
    (h : ¬(role = "admin" ∨ role = "user")) :
    update_user_role s user_id role = (.error .invalidRole, s) := by
  unfold update_user_role
  rw [if_pos h]

/-- Witness for C6 at the role string `"superuser"`. -/
theorem C6_invalid_role_rejected_witness :
    update_user_role ⟨[⟨0, "a@x", "h", none, "admin", true⟩], 1⟩ 0 "superuser" =
      (.error .invalidRole, ⟨[⟨0, "a@x", "h", none, "admin", true⟩], 1⟩) :=
  C6_invalid_role_rejected ⟨[⟨0, "a@x", "h", none, "admin", true⟩], 1⟩ 0
    "superuser" (by decide)

/-- C4: with a valid new role and distinct account identifiers,
`update_user_role` fails with the last-admin protection error exactly
when the target account currently has role `"admin"`, the new role is
`"user"`, and the count of admins other than the target is zero; and
under a valid role no other error can arise — in particular demoting an
admin while another admin exists succeeds, and promoting to `"admin"`
is never denied by last-admin protection. -/
theorem C4_last_admin_protection_iff (s : St) (user_id : Nat) (role : String)
    (hvalid : role = "admin" ∨ role = "user")
    (hnodup : (s.users.map Account.id).Nodup) :
    ((update_user_role s user_id role).1 = .error .lastAdminDemote ↔
      role = "user" ∧ ∃ u, get_user_by_id s user_id = some u ∧
        u.role = "admin" ∧ otherAdminCount s user_id = 0) ∧
    ∀ e, (update_user_role s user_id role).1 = .error e →
      e = .lastAdminDemote := by
  have hcond : ¬¬(role = "admin" ∨ role = "user") := not_not.mpr hvalid
  unfold update_user_role
  rw [if_neg hcond]
  by_cases hg : isLastAdminDemotion s user_id role = true
  · rw [if_pos hg]
    obtain ⟨hr, u, hfind, hu, hc⟩ := (isLastAdminDemotion_iff s user_id role).mp hg
    have hsplit := count_eq_other_succ hnodup hfind hu
    refine ⟨⟨fun _ => ⟨hr, u, hfind, hu, by omega⟩, fun _ => rfl⟩, ?_⟩
    intro e he
    simp only at he
    injection he with he'
    exact he'.symm
  · rw [if_neg hg]
    constructor
    · constructor
      · intro habs
        simp at habs
      · rintro ⟨hr, u, hfind, hu, hother⟩
        exfalso
        apply hg
        rw [isLastAdminDemotion_iff]
        have hsplit := count_eq_other_succ hnodup hfind hu
        exact ⟨hr, u, hfind, hu, by omega⟩
    · intro e he
      exfalso
      simp at he

/-- Witness for C4: the sole admin cannot be demoted. -/
theorem C4_last_admin_protection_iff_witness :
    (update_user_role ⟨[⟨0, "a@x", "h", none, "admin", true⟩], 1⟩ 0 "user").1 =
      .error .lastAdminDemote :=
  ((C4_last_admin_protection_iff ⟨[⟨0, "a@x", "h", none, "admin", true⟩], 1⟩ 0
      "user" (Or.inr rfl) (by decide)).1).mpr
    ⟨rfl, ⟨0, "a@x", "h", none, "admin", true⟩, by decide, rfl, by decide⟩

/-! ### Registration, bootstrap and authentication -/

theorem find_email_append {l : List Account} {e : String} {a : Account}
    (h : l.find? (fun u => u.email == e) = none) (ha : a.email = e) :
    (l ++ [a]).find? (fun u => u.email == e) = some a := by
  rw [List.find?_append, h, Option.none_or]
  rw [List.find?_cons_of_pos [] (by simp [ha])]

/-- C3 counterexample: in a state already holding an account with the
default-admin email, `create_default_admin` returns that account — not
nothing, as the claim asserts. -/
theorem C3_returns_existing_counterexample :
    (create_default_admin
        ⟨[⟨0, "admin@example.com", "h", none, "admin", true⟩], 1⟩
        "admin@example.com" "admin" "Administrator").1 ≠ none := by
  decide

/-- C3 (amended): when an account with the configured email exists,
`create_default_admin` returns THAT account (rather than nothing) and
performs no write; the second of two identical calls always performs no
write, and starting from a state without the email the call creates
exactly one account. -/
theorem C3_idempotent_bootstrap (s : St) (e p n : String) :
    ((∃ u, get_user_by_email s e = some u) →
        create_default_admin s e p n = (get_user_by_email s e, s)) ∧
    (create_default_admin (create_default_admin s e p n).2 e p n).2 =
      (create_default_admin s e p n).2 ∧
    (get_user_by_email s e = none →
      (create_default_admin s e p n).2.users.length = s.users.length + 1) := by
  refine ⟨?_, ?_, ?_⟩
  · rintro ⟨u, hu⟩
    unfold create_default_admin
    rw [hu]
  · cases hu : get_user_by_email s e with
    | some u =>
      have h1 : create_default_admin s e p n = (get_user_by_email s e, s) := by
        unfold create_default_admin
        rw [hu]
      rw [h1]
      have h2 : create_default_admin s e p n = (get_user_by_email s e, s) := h1
      simp only
      rw [h1]
    | none =>
      have hcu : create_user s ⟨e, p, some n, "admin"⟩ =
          (.ok ⟨s.nextId, e, get_password_hash p, some n, "admin", true⟩,
           ⟨s.users ++ [⟨s.nextId, e, get_password_hash p, some n, "admin", true⟩],
            s.nextId + 1⟩) := by
        unfold create_user
        rw [hu]
      have h1 : create_default_admin s e p n =
          (some ⟨s.nextId, e, get_password_hash p, some n, "admin", true⟩,
           ⟨s.users ++ [⟨s.nextId, e, get_password_hash p, some n, "admin", true⟩],
            s.nextId + 1⟩) := by
        unfold create_default_admin
        rw [hu, hcu]
      rw [h1]
      have hfind : get_user_by_email
          ⟨s.users ++ [⟨s.nextId, e, get_password_hash p, some n, "admin", true⟩],
           s.nextId + 1⟩ e =
          some ⟨s.nextId, e, get_password_hash p, some n, "admin", true⟩ := by
        unfold get_user_by_email
        rw [get_user_by_email] at hu
        exact find_email_append hu rfl
      unfold create_default_admin
      rw [hfind]
  · intro hu
    have hcu : create_user s ⟨e, p, some n, "admin"⟩ =
        (.ok ⟨s.nextId, e, get_password_hash p, some n, "admin", true⟩,
         ⟨s.users ++ [⟨s.nextId, e, get_password_hash p, some n, "admin", true⟩],
          s.nextId + 1⟩) := by
      unfold create_user
      rw [hu]
    have h1 : create_default_admin s e p n =
        (some ⟨s.nextId, e, get_password_hash p, some n, "admin", true⟩,
         ⟨s.users ++ [⟨s.nextId, e, get_password_hash p, some n, "admin", true⟩],
          s.nextId + 1⟩) := by
      unfold create_default_admin
      rw [hu, hcu]
    rw [h1]
    simp

/-- Witness for the amended C3: bootstrap over an existing default
admin returns the stored account and leaves the state unchanged. -/
theorem C3_idempotent_bootstrap_witness :
    create_default_admin
        ⟨[⟨0, "admin@example.com", "h", none, "admin", true⟩], 1⟩
        "admin@example.com" "admin" "Administrator" =
      (some ⟨0, "admin@example.com", "h", none, "admin", true⟩,
       ⟨[⟨0, "admin@example.com", "h", none, "admin", true⟩], 1⟩) := by
  have h := (C3_idempotent_bootstrap
      ⟨[⟨0, "admin@example.com", "h", none, "admin", true⟩], 1⟩
      "admin@example.com" "admin" "Administrator").1
    ⟨⟨0, "admin@example.com", "h", none, "admin", true⟩, by decide⟩
  rw [h]
  decide

/-- C9: the failure outcome of a login attempt against an email with no
account is exactly the same value as that of an attempt against an
existing email with a wrong password: both are `none`, with no
distinguishing signal in the returned value. -/
theorem C9_auth_failure_indistinguishable (s : St)
    (e1 e2 pw1 pw2 : String) (u : Account)
    (h1 : get_user_by_email s e1 = none)
    (h2 : get_user_by_email s e2 = some u)
    (h3 : verify_password pw2 u.hashed_password = false) :
    authenticate_user s e1 pw1 = none ∧
    authenticate_user s e2 pw2 = none ∧
    authenticate_user s e1 pw1 = authenticate_user s e2 pw2 := by
  have ha : authenticate_user s e1 pw1 = none := by
    unfold authenticate_user
    rw [h1]
  have hb : authenticate_user s e2 pw2 = none := by
    unfold authenticate_user
    rw [h2]
    show (if verify_password pw2 u.hashed_password = true then some u else none) =
      none
    rw [h3]
    simp
  exact ⟨ha, hb, ha.trans hb.symm⟩

/-- Witness for C9: unknown email versus wrong password, concretely. -/
theorem C9_auth_failure_indistinguishable_witness :
    authenticate_user ⟨[⟨0, "alice@x", "H", none, "user", true⟩], 1⟩
        "ghost@x" "pw" = none ∧
    authenticate_user ⟨[⟨0, "alice@x", "H", none, "user", true⟩], 1⟩
        "alice@x" "wrong" = none ∧
    authenticate_user ⟨[⟨0, "alice@x", "H", none, "user", true⟩], 1⟩
        "ghost@x" "pw" =
      authenticate_user ⟨[⟨0, "alice@x", "H", none, "user", true⟩], 1⟩
        "alice@x" "wrong" :=
  C9_auth_failure_indistinguishable
    ⟨[⟨0, "alice@x", "H", none, "user", true⟩], 1⟩
    "ghost@x" "alice@x" "pw" "wrong"
    ⟨0, "alice@x", "H", none, "user", true⟩
    (by decide) (by decide) (by decide)

/-- C10: `create_user` persists the caller-supplied role string
verbatim without validating it against the role enum: for every role
string, registration with a fresh email succeeds and the stored account
carries exactly that role (role validity is enforced only by
`update_user_role`). -/
theorem C10_create_user_role_unvalidated (s : St) (d : UserCreate)
    (h : get_user_by_email s d.email = none) :
    create_user s d =
      (.ok ⟨s.nextId, d.email, get_password_hash d.password,
            d.full_name, d.role, true⟩,
       ⟨s.users ++ [⟨s.nextId, d.email, get_password_hash d.password,
            d.full_name, d.role, true⟩], s.nextId + 1⟩) ∧
    get_user_by_email (create_user s d).2 d.email =
      some ⟨s.nextId, d.email, get_password_hash d.password,
            d.full_name, d.role, true⟩ := by
  have hc : create_user s d =
      (.ok ⟨s.nextId, d.email, get_password_hash d.password,
            d.full_name, d.role, true⟩,
       ⟨s.users ++ [⟨s.nextId, d.email, get_password_hash d.password,
            d.full_name, d.role, true⟩], s.nextId + 1⟩) := by
    unfold create_user
    rw [h]
  refine ⟨hc, ?_⟩
  rw [hc]
  unfold get_user_by_email
  rw [get_user_by_email] at h
  exact find_email_append h rfl

/-- Witness for C10 at the out-of-enum role `"superadmin"`. -/
theorem C10_create_user_role_unvalidated_witness :
    create_user ⟨[], 0⟩ ⟨"eve@x", "pw", none, "superadmin"⟩ =
      (.ok ⟨0, "eve@x", get_password_hash "pw", none, "superadmin", true⟩,
       ⟨[] ++ [⟨0, "eve@x", get_password_hash "pw", none, "superadmin", true⟩],
        1⟩) ∧
    get_user_by_email
        (create_user ⟨[], 0⟩ ⟨"eve@x", "pw", none, "superadmin"⟩).2 "eve@x" =
      some ⟨0, "eve@x", get_password_hash "pw", none, "superadmin", true⟩ :=
  C10_create_user_role_unvalidated ⟨[], 0⟩ ⟨"eve@x", "pw", none, "superadmin"⟩
    (by decide)

/-!
### The token codec (src/app/auth.py)

A JWT is a signed serialization of its claims.  We model the serialized
claims as a list of naturals (one symbol per serialized segment) and the
HMAC-SHA256 signature as an injective pairing of the secret with the
message — the idealization under which a signature matches exactly one
message per secret.  Clock instants are integers passed explicitly; the
python-jose expiry check rejects a token exactly when the current
instant is past the `exp` claim.
-/

def encodeListNat : List Nat → Nat
  | [] => 0
  | a :: l => Nat.pair a (encodeListNat l) + 1

def decodeListNatAux : Nat → Nat → List Nat
  | _, 0 => []
  | 0, _ + 1 => []
  | fuel + 1, n + 1 => (Nat.unpair n).1 :: decodeListNatAux fuel (Nat.unpair n).2

def decodeListNat (n : Nat) : List Nat := decodeListNatAux n n

theorem decodeListNatAux_encode :
    ∀ (l : List Nat) (fuel : Nat), encodeListNat l ≤ fuel →
      decodeListNatAux fuel (encodeListNat l) = l
  | [], fuel, _ => by cases fuel <;> rfl
  | a :: l, fuel, h => by
    have h1 : Nat.pair a (encodeListNat l) + 1 ≤ fuel := h
    cases fuel with
    | zero => omega
    | succ f =>
      have hred : decodeListNatAux (f + 1) (Nat.pair a (encodeListNat l) + 1) =
          (Nat.unpair (Nat.pair a (encodeListNat l))).1 ::
            decodeListNatAux f (Nat.unpair (Nat.pair a (encodeListNat l))).2 := rfl
      have hle : encodeListNat l ≤ f := by
        have := Nat.right_le_pair a (encodeListNat l)
        omega
      show decodeListNatAux (f + 1) (encodeListNat (a :: l)) = a :: l
      have henc : encodeListNat (a :: l) = Nat.pair a (encodeListNat l) + 1 := rfl
      rw [henc, hred, Nat.unpair_pair]
      rw [decodeListNatAux_encode l f hle]

theorem decodeListNat_encode (l : List Nat) :
    decodeListNat (encodeListNat l) = l :=
  decodeListNatAux_encode l (encodeListNat l) (Nat.le_refl _)

theorem encodeListNat_injective : Function.Injective encodeListNat :=
  fun a b h => by
    rw [← decodeListNat_encode a, ← decodeListNat_encode b, h]

def encodeStr (s : String) : Nat := encodeListNat (s.data.map Char.toNat)

def decodeStr (n : Nat) : String := ⟨(decodeListNat n).map Char.ofNat⟩

theorem map_ofNat_toNat :
    ∀ l : List Char, l.map (fun c => Char.ofNat (Char.toNat c)) = l
  | [] => rfl
  | c :: l => by rw [List.map_cons, Char.ofNat_toNat, map_ofNat_toNat l]

theorem decodeStr_encodeStr (s : String) : decodeStr (encodeStr s) = s := by
  unfold decodeStr encodeStr
  rw [decodeListNat_encode, List.map_map]
  show String.mk (s.data.map (fun c => Char.ofNat (Char.toNat c))) = s
  rw [map_ofNat_toNat]

def encodeSub : Option String → Nat
  | none => 0
  | some s => encodeStr s + 1

def decodeSub : Nat → Option String
  | 0 => none
  | n + 1 => some (decodeStr n)

theorem decodeSub_encodeSub : ∀ o : Option String, decodeSub (encodeSub o) = o
  | none => rfl
  | some s => by
    show some (decodeStr (encodeStr s)) = some s
    rw [decodeStr_encodeStr]

def encodeInt : Int → Nat
  | .ofNat n => 2 * n
  | .negSucc n => 2 * n + 1

def decodeInt (n : Nat) : Int :=
  if n % 2 = 0 then .ofNat (n / 2) else .negSucc (n / 2)

theorem decodeInt_encodeInt : ∀ i : Int, decodeInt (encodeInt i) = i
  | .ofNat n => by
    show decodeInt (2 * n) = Int.ofNat n
    unfold decodeInt
    rw [if_pos (by omega)]
    congr 1
    omega
  | .negSucc n => by
    show decodeInt (2 * n + 1) = Int.negSucc n
    unfold decodeInt
    rw [if_neg (by omega)]
    congr 1
    omega

/-- Claims carried by a token: the `"sub"` entry (absent when the
caller's dict lacks it) and the `"exp"` instant added at issuance. -/
structure Payload where
  sub : Option String
  exp : Int
deriving DecidableEq

/-- Serialization of the claims into message symbols. -/
def payloadMsg (p : Payload) : List Nat := [encodeSub p.sub, encodeInt p.exp]

/-- Deserialization; any message that is not a well-formed two-segment
claims serialization is malformed. -/
def decodeMsg : List Nat → Option Payload
  | [a, b] => some ⟨decodeSub a, decodeInt b⟩
  | _ => none

theorem decodeMsg_payloadMsg (p : Payload) : decodeMsg (payloadMsg p) = some p := by
  show some (⟨decodeSub (encodeSub p.sub), decodeInt (encodeInt p.exp)⟩ : Payload) =
    some p
  rw [decodeSub_encodeSub, decodeInt_encodeInt]

/-- Idealized HMAC over the shared secret: a signature matches exactly
one message per secret. -/
def mac (secret : Nat) (msg : List Nat) : Nat :=
  Nat.pair secret (encodeListNat msg)

theorem mac_injective_msg {secret : Nat} {m1 m2 : List Nat}
    (h : mac secret m1 = mac secret m2) : m1 = m2 :=
  encodeListNat_injective (Nat.pair_eq_pair.mp h).2

/-- A serialized token: message symbols plus the signature. -/
structure Token where
  msg : List Nat
  sig : Nat
deriving DecidableEq

/-- Response model of `verify_token` (src/app/models.py, `TokenData`). -/
structure TokenData where
  email : Option String
deriving DecidableEq

/-- An HTTP-level error as raised by `verify_token`. -/
structure HTTPError where
  status_code : Nat
  detail : String
deriving DecidableEq

/-- The single 401 error `verify_token` raises on every failure
(src/app/auth.py, lines 39-43). -/
def credentials_exception : HTTPError :=
  ⟨401, "Could not validate credentials"⟩

/-- Model of `create_access_token` (src/app/auth.py, lines 24-34): copy
the data (here, its `"sub"` entry), add `exp = now + expires_delta`
(falling back to the configured default lifetime), and sign with the
shared secret. -/
def create_access_token (secret : Nat) (data_sub : String) (now : Int)
    (expires_delta : Option Int) (default_expire : Int) : Token :=
  let expire : Int :=
    match expires_delta with
    | some d => now + d
    | none => now + default_expire
  let to_encode : Payload := ⟨some data_sub, expire⟩
  ⟨payloadMsg to_encode, mac secret (payloadMsg to_encode)⟩

/-- Model of `verify_token` (src/app/auth.py, lines 37-54):
`jwt.decode` checks the signature, the structure and the expiry
(python-jose rejects exactly when the current instant is past `exp`),
then the `"sub"` claim is required; every failure raises the same
`credentials_exception`. -/
def verify_token (secret : Nat) (now : Int) (t : Token) :
    Except HTTPError TokenData :=
  if t.sig ≠ mac secret t.msg then .error credentials_exception
  else
    match decodeMsg t.msg with
    | none => .error credentials_exception
    | some payload =>
      if payload.exp < now then .error credentials_exception
      else
        match payload.sub with
        | none => .error credentials_exception
        | some email => .ok ⟨some email⟩

/-- Replace the message symbol at one position of a serialized token. -/
def tamperMsg (t : Token) (j : Nat) (v : Nat) : Token := ⟨t.msg.set j v, t.sig⟩

/-- Replace the signature of a serialized token. -/
def tamperSig (t : Token) (v : Nat) : Token := ⟨t.msg, v⟩

theorem verify_create (secret : Nat) (S : String) (now now2 L d : Int) :
    verify_token secret now2 (create_access_token secret S now (some L) d) =
      if now + L < now2 then .error credentials_exception
      else .ok ⟨some S⟩ := by
  unfold create_access_token verify_token
  rw [if_neg (by intro h; exact h rfl)]
  rw [decodeMsg_payloadMsg]

theorem verify_isOk_iff (secret : Nat) (now : Int) (t : Token) :
    (verify_token secret now t).isOk = true ↔
      (t.sig = mac secret t.msg ∧ ∃ p, decodeMsg t.msg = some p ∧
        (∃ S, p.sub = some S) ∧ ¬(p.exp < now)) := by
  unfold verify_token
  split
  next hsig =>
    simp only [Except.isOk, Except.toBool]
    constructor
    · intro h; cases h
    · rintro ⟨h, _⟩; exact absurd h hsig
  next hsig =>
    rw [not_not] at hsig
    split
    next hdec =>
      simp only [Except.isOk, Except.toBool]
      constructor
      · intro h; cases h
      · rintro ⟨_, q, hq, _⟩
        rw [hdec] at hq
        cases hq
    next p hdec =>
      split
      next hexp =>
        simp only [Except.isOk, Except.toBool]
        constructor
        · intro h; cases h
        · rintro ⟨_, q, hq, _, hnl⟩
          rw [hdec] at hq
          injection hq with hq
          subst hq
          exact absurd hexp hnl
      next hexp =>
        split
        next hsub =>
          simp only [Except.isOk, Except.toBool]
          constructor
          · intro h; cases h
          · rintro ⟨_, q, hq, ⟨S, hS⟩, _⟩
            rw [hdec] at hq
            injection hq with hq
            subst hq
            rw [hsub] at hS
            cases hS
        next S hsub =>
          simp only [Except.isOk, Except.toBool]
          constructor
          · intro _
            exact ⟨hsig, p, hdec, ⟨S, hsub⟩, hexp⟩
          · intro _
            trivial

theorem exists_error_iff_not_isOk {ε α : Type} (x : Except ε α) :
    (∃ e, x = .error e) ↔ ¬(x.isOk = true) := by
  cases x <;> simp [Except.isOk, Except.toBool]

theorem verify_error_unique (secret : Nat) (now : Int) (t : Token) :
    ∀ e, verify_token secret now t = .error e → e = credentials_exception := by
  unfold verify_token
  split
  · intro e he
    injection he with he
    exact he.symm
  · split
    · intro e he
      injection he with he
      exact he.symm
    · split
      · intro e he
        injection he with he
        exact he.symm
      · split
        · intro e he
          injection he with he
          exact he.symm
        · intro e he
          cases he

theorem set_ne_of_ne {l : List Nat} {j v : Nat}
    (hj : j < l.length) (hv : v ≠ l.getD j 0) : l.set j v ≠ l := by
  intro heq
  apply hv
  have h1 : (l.set j v).getD j 0 = v := by
    have hj' : j < (l.set j v).length := by simpa using hj
    rw [List.getD_eq_getElem?_getD, List.getElem?_eq_getElem hj']
    simp
  rw [heq] at h1
  exact h1.symm

theorem verify_tamperMsg {secret : Nat} {now : Int} {t : Token} {j v : Nat}
    (hok : (verify_token secret now t).isOk = true)
    (hj : j < t.msg.length) (hv : v ≠ t.msg.getD j 0) :
    verify_token secret now (tamperMsg t j v) = .error credentials_exception := by
  have hsig := ((verify_isOk_iff secret now t).mp hok).1
  have hne : t.msg.set j v ≠ t.msg := set_ne_of_ne hj hv
  have hcond : (tamperMsg t j v).sig ≠ mac secret (tamperMsg t j v).msg := by
    show t.sig ≠ mac secret (t.msg.set j v)
    rw [hsig]
    intro hmac
    exact hne (mac_injective_msg hmac.symm)
  unfold verify_token
  rw [if_pos hcond]

theorem verify_tamperSig {secret : Nat} {now : Int} {t : Token} {v : Nat}
    (hok : (verify_token secret now t).isOk = true) (hv : v ≠ t.sig) :
    verify_token secret now (tamperSig t v) = .error credentials_exception := by
  have hsig := ((verify_isOk_iff secret now t).mp hok).1
  have hcond : (tamperSig t v).sig ≠ mac secret (tamperSig t v).msg := by
    show v ≠ mac secret t.msg
    rw [← hsig]
    exact hv
  unfold verify_token
  rw [if_pos hcond]

/-- C7: for every subject, secret and positive lifetime, verifying the
token produced by `create_access_token` with the clock unchanged
succeeds and returns claims carrying exactly that subject; verifying
the same token at any instant more than the lifetime after issuance
fails. -/
theorem C7_issue_verify_roundtrip (secret : Nat) (S : String)
    (now now2 L d : Int) (hL : 0 < L) :
    verify_token secret now (create_access_token secret S now (some L) d) =
      .ok ⟨some S⟩ ∧
    (now + L < now2 →
      verify_token secret now2 (create_access_token secret S now (some L) d) =
        .error credentials_exception) := by
  constructor
  · rw [verify_create, if_neg (by omega)]
  · intro h
    rw [verify_create, if_pos h]

/-- Witness for C7: issue at instant 0 with lifetime 60, verify at 0
and at 61. -/
theorem C7_issue_verify_roundtrip_witness :
    verify_token 5 0 (create_access_token 5 "a" 0 (some 60) 1800) =
      .ok ⟨some "a"⟩ ∧
    verify_token 5 61 (create_access_token 5 "a" 0 (some 60) 1800) =
      .error credentials_exception :=
  ⟨(C7_issue_verify_roundtrip 5 "a" 0 61 60 1800 (by decide)).1,
   (C7_issue_verify_roundtrip 5 "a" 0 61 60 1800 (by decide)).2 (by decide)⟩

/-- C8: `verify_token` fails exactly when the signature does not match,
the message is malformed, the subject claim is missing, or the token is
expired; every failure carries the single `credentials_exception` with
no outward distinction between the cases; and altering any one position
of a verifiable token — a message symbol or the signature — makes
verification fail. -/
theorem C8_verify_failure_characterization (secret : Nat) (now : Int)
    (t : Token) :
    ((∃ e, verify_token secret now t = .error e) ↔
      ¬(t.sig = mac secret t.msg ∧ ∃ p, decodeMsg t.msg = some p ∧
        (∃ S, p.sub = some S) ∧ ¬(p.exp < now))) ∧
    (∀ e, verify_token secret now t = .error e → e = credentials_exception) ∧
    (∀ j v, (verify_token secret now t).isOk = true → j < t.msg.length →
      v ≠ t.msg.getD j 0 →
      verify_token secret now (tamperMsg t j v) = .error credentials_exception) ∧
    (∀ v, (verify_token secret now t).isOk = true → v ≠ t.sig →
      verify_token secret now (tamperSig t v) = .error credentials_exception) := by
  refine ⟨?_, verify_error_unique secret now t, ?_, ?_⟩
  · rw [exists_error_iff_not_isOk, verify_isOk_iff]
  · intro j v hok hj hv
    exact verify_tamperMsg hok hj hv
  · intro v hok hv
    exact verify_tamperSig hok hv

/-- Witness for C8: a verifiable token, its first message symbol
altered, and its signature altered. -/
theorem C8_verify_failure_characterization_witness :
    verify_token 7 0
        (tamperMsg (create_access_token 7 "a" 0 (some 60) 0) 0 0) =
      .error credentials_exception ∧
    verify_token 7 0
        (tamperSig (create_access_token 7 "a" 0 (some 60) 0) 0) =
      .error credentials_exception :=
  ⟨(C8_verify_failure_characterization 7 0
      (create_access_token 7 "a" 0 (some 60) 0)).2.2.1 0 0
      (by decide) (by decide) (by decide),
   (C8_verify_failure_characterization 7 0
      (create_access_token 7 "a" 0 (some 60) 0)).2.2.2 0
      (by decide) (by decide)⟩
